import Mathlib

/-!
Verification of the PredictAI portfolio accounting core.

The development shallowly embeds the replay reducer (`db.py`:
`reconstruct_portfolio_state`), the database seeding/reset operations
(`db.py`: `init_db`, `reset_db`, the logging helpers, and `main.py`:
`reset_system`), the hard price-ceiling guardrail applied inside the
decision engine (`logic.py`: `DecisionEngine.get_market_analysis`,
post-parse rewrite), and the trade-executing job (`main.py`:
`investment_job`).  Python floats are idealised as rationals (ℚ); Python
dicts keyed by asset symbol become insertion-ordered association lists;
nullable SQL columns become `Option ℚ`.
-/

namespace PredictAI

/-- A per-asset position, as stored in the Python dict
`{'shares': float, 'avg_price': float}`. -/
structure Position where
  shares : ℚ
  avg_price : ℚ
deriving Repr, DecidableEq

/-- The portfolio dict `{asset: {'shares': ..., 'avg_price': ...}}`,
modelled as an insertion-ordered association list. -/
abbrev Portfolio := List (String × Position)

/-- Dict lookup, `asset in portfolio` / `portfolio[asset]`. -/
def lookupAsset : Portfolio → String → Option Position
  | [], _ => none
  | (k, v) :: rest, a => if k = a then some v else lookupAsset rest a

/-- Dict assignment `portfolio[asset] = pos`: update in place when the key exists,
append otherwise (Python dict insertion order). -/
def setAsset : Portfolio → String → Position → Portfolio
  | [], a, pos => [(a, pos)]
  | (k, v) :: rest, a, pos =>
      if k = a then (k, pos) :: rest else (k, v) :: setAsset rest a pos

/-- Dict deletion, `del portfolio[asset]`. -/
def eraseAsset : Portfolio → String → Portfolio
  | [], _ => []
  | (k, v) :: rest, a => if k = a then rest else (k, v) :: eraseAsset rest a

/-- The float epsilon `0.000001` used by both deletion sites. -/
def eps : ℚ := 1 / 1000000

/-- A row of the `transactions` table: category, amount, asset, detail,
price (nullable) and gain.  `amount` is kept optional because the column
is nullable and the reducer applies `float(amount or 0)`. -/
structure Tx where
  category : String
  amount : Option ℚ
  asset : String
  detail : String
  price : Option ℚ
  gain : ℚ
deriving Repr, DecidableEq

/-- Amount coercion `float(amount or 0)`: a missing (or zero) amount reads as `0`. -/
def txAmount (t : Tx) : ℚ :=
  match t.amount with
  | none => 0
  | some a => a

/-- Effective price `px = float(price or 1.0)` followed by `if px <= 0: px = 1.0`
(db.py lines 109-110): `None` and `0` read as `1.0`, and any
non-positive value is clamped to `1.0`. -/
def effPrice (price : Option ℚ) : ℚ :=
  let px : ℚ :=
    match price with
    | none => 1
    | some p => if p = 0 then 1 else p
  if px ≤ 0 then 1 else px

/-- The state rebuilt by the replay: current cash balance and the
portfolio dict. -/
structure PState where
  balance : ℚ
  portfolio : Portfolio
deriving Repr, DecidableEq

/-- The body of the replay loop in `reconstruct_portfolio_state`
(db.py lines 107-139), applied to one transaction row. -/
def applyTx (s : PState) (t : Tx) : PState :=
  let amt := txAmount t
  let px := effPrice t.price
  if t.category = "DEPOSIT" then
    { s with balance := s.balance + amt }
  else if t.category = "BUY" then
    let shares_bought := amt / px
    let old := (lookupAsset s.portfolio t.asset).getD ⟨0, 0⟩
    let total_shares := old.shares + shares_bought
    let new_avg :=
      if total_shares > 0 then
        (old.shares * old.avg_price + shares_bought * px) / total_shares
      else px
    { balance := s.balance - amt,
      portfolio := setAsset s.portfolio t.asset ⟨total_shares, new_avg⟩ }
  else if t.category = "SELL" then
    let shares_sold := amt / px
    match lookupAsset s.portfolio t.asset with
    | none => { s with balance := s.balance + amt }
    | some pos =>
        let remaining := max 0 (pos.shares - shares_sold)
        { balance := s.balance + amt,
          portfolio :=
            if remaining < eps then eraseAsset s.portfolio t.asset
            else setAsset s.portfolio t.asset ⟨remaining, pos.avg_price⟩ }
  else s

/-- Replay entry point `reconstruct_portfolio_state` (db.py lines 91-140): replay the rows
in ascending order starting from balance `0.0` and an empty dict. -/
def reconstruct_portfolio_state (txs : List Tx) : PState :=
  txs.foldl applyTx ⟨0, []⟩

/-! ### Database seeding, logging and reset (db.py / main.py) -/

/-- The two persisted collections: the `transactions` table and the
`total_value` column of `portfolio_history`, each in insertion order. -/
structure DBState where
  transactions : List Tx
  portfolio_history : List ℚ
deriving Repr, DecidableEq

/-- The genesis row inserted by `init_db` (db.py lines 44-45): a
`DEPOSIT` of `100.0` of asset `USD` with `price = NULL`. -/
def genesisDeposit : Tx :=
  { category := "DEPOSIT", amount := some 100, asset := "USD",
    detail := "Initial Deposit", price := none, gain := 0 }

/-- Seeding `init_db` (db.py lines 6-48): when `portfolio_history` is empty,
insert one valuation point `100.0` and the genesis deposit. -/
def init_db (db : DBState) : DBState :=
  if db.portfolio_history.isEmpty then
    { transactions := db.transactions ++ [genesisDeposit],
      portfolio_history := db.portfolio_history ++ [100] }
  else db

/-- History append `log_portfolio_value` (db.py lines 50-56). -/
def log_portfolio_value (db : DBState) (value : ℚ) : DBState :=
  { db with portfolio_history := db.portfolio_history ++ [value] }

/-- Ledger append `log_transaction` (db.py lines 58-64): every argument is concrete,
so the inserted row has `some` amount and `some` price. -/
def log_transaction (db : DBState) (category : String) (amount : ℚ)
    (asset detail : String) (price gain : ℚ) : DBState :=
  { db with transactions :=
      db.transactions ++
        [{ category := category, amount := some amount, asset := asset,
           detail := detail, price := some price, gain := gain }] }

/-- Full reset `reset_db` (db.py lines 142-150): drop both tables, then `init_db`. -/
def reset_db (_db : DBState) : DBState :=
  init_db { transactions := [], portfolio_history := [] }

/-- API reset `reset_system` (main.py lines 247-261): `reset_db`, reload the
globals from `reconstruct_portfolio_state`, then
`log_portfolio_value(current_balance)`.  Returns the database together
with the reloaded in-memory state. -/
def reset_system (db : DBState) : DBState × PState :=
  let db1 := reset_db db
  let s := reconstruct_portfolio_state db1.transactions
  (log_portfolio_value db1 s.balance, s)

/-! ### Decision engine guardrail (logic.py) and executor (main.py) -/

/-- The decision dict returned by the oracle:
`{action, asset, amount, price, reasoning}`.  `amount` and `price` are
kept optional because the Python code reads them through `.get`. -/
structure Decision where
  action : String
  asset : String
  amount : Option ℚ
  price : Option ℚ
  reasoning : String
deriving Repr, DecidableEq

/-- Python's `str.startswith(p)`: the characters of `p` are a leading
segment of the characters of `s`. -/
def pyStartsWith (s p : String) : Bool :=
  p.data.isPrefixOf s.data

/-- The rewritten reasoning string of the price-ceiling block
(logic.py line 320). -/
def blockedReasoning (price : ℚ) : String :=
  "BLOCKED: Price $" ++ toString price ++
    " is too high (> $0.75) for prediction markets."

/-- The hard price-ceiling guardrail applied inside
`DecisionEngine.get_market_analysis` after parsing the model's JSON
(logic.py lines 301-323).  `price = float(decision.get("price", 0))`
defaults a missing price to `0`; the asset counts as a prediction
market when its name starts with `POLY:` or its price is below `0.99`;
a BUY of such an asset priced above `0.75` is rewritten to a HOLD of
amount `0`. -/
def apply_price_ceiling (d : Decision) : Decision :=
  if d.action = "BUY" then
    let price := (d.price).getD 0
    if (pyStartsWith d.asset "POLY:" = true ∨ price < 99 / 100)
        ∧ 75 / 100 < price then
      { action := "HOLD", asset := d.asset, amount := some 0,
        price := some price, reasoning := blockedReasoning price }
    else d
  else d

/-- Holdings subtotal `sum(v['shares'] * v['avg_price'] for v in portfolio.values())`. -/
def holdingsValue (p : Portfolio) : ℚ :=
  (p.map fun x => x.2.shares * x.2.avg_price).sum

/-- Decision amount `float(decision.get("amount") or 0)` (main.py line 85). -/
def decAmount (d : Decision) : ℚ :=
  match d.amount with
  | none => 0
  | some a => a

/-- Decision price `float(decision.get("price") or 1.0)` (main.py line 86):
`None` and `0` read as `1.0`; any other value — including a negative
one — passes through unclamped. -/
def decPrice (d : Decision) : ℚ :=
  match d.price with
  | none => 1
  | some p => if p = 0 then 1 else p

/-- The outcome of one run of `investment_job`: the two mutated globals
plus the transactions appended via `log_transaction`, in order.  (The
job also appends one valuation point on every path except the
diversification early return; the valuation amount is randomised and is
not modelled here.) -/
structure JobResult where
  current_balance : ℚ
  portfolio : Portfolio
  logged : List Tx
deriving Repr, DecidableEq

/-- The row written by a `log_transaction(category, amount, asset,
detail, price, gain)` call from `investment_job`. -/
def mkLogged (category : String) (amount : ℚ) (asset detail : String)
    (price gain : ℚ) : Tx :=
  { category := category, amount := some amount, asset := asset,
    detail := detail, price := some price, gain := gain }

/-- The funds check and BUY execution of `investment_job`
(main.py lines 110-130), run with the possibly capped amount. -/
def execBuy (current_balance : ℚ) (portfolio : Portfolio)
    (asset : String) (amount price : ℚ) (reasoning : String) : JobResult :=
  if current_balance ≥ amount ∧ amount > 0 then
    let shares_bought := amount / price
    let old := (lookupAsset portfolio asset).getD ⟨0, 0⟩
    let total_shares := old.shares + shares_bought
    let new_avg :=
      if total_shares > 0 then
        (old.shares * old.avg_price + shares_bought * price) / total_shares
      else price
    { current_balance := current_balance - amount,
      portfolio := setAsset portfolio asset ⟨total_shares, new_avg⟩,
      logged := [mkLogged "BUY" amount asset reasoning price 0] }
  else
    { current_balance := current_balance, portfolio := portfolio,
      logged := [] }

/-- Executor `investment_job` (main.py lines 71-170) after the oracle's decision
is in hand: diversification cap, funds check and execution for BUY;
shares check and execution for SELL; informational logging for
HOLD/WATCH. -/
def investment_job (current_balance : ℚ) (portfolio : Portfolio)
    (decision : Decision) : JobResult :=
  let total_invested := holdingsValue portfolio
  let total_portfolio_value := current_balance + total_invested
  let amount := decAmount decision
  let price := decPrice decision
  let asset := decision.asset
  let reasoning := decision.reasoning
  if decision.action = "BUY" then
    let current_asset_val : ℚ :=
      match lookupAsset portfolio asset with
      | none => 0
      | some pos => pos.shares * pos.avg_price
    let max_position_size := total_portfolio_value * (40 / 100)
    let proposed_total := current_asset_val + amount
    if proposed_total > max_position_size then
      let allowed_buy := max_position_size - current_asset_val
      if allowed_buy < 2 then
        { current_balance := current_balance, portfolio := portfolio,
          logged := [mkLogged "WATCH" 0 asset
            "Diversification limit reached (Max 40%)" price 0] }
      else
        execBuy current_balance portfolio asset allowed_buy price reasoning
    else
      execBuy current_balance portfolio asset amount price reasoning
  else if decision.action = "SELL" then
    match lookupAsset portfolio asset with
    | none =>
        { current_balance := current_balance, portfolio := portfolio,
          logged := [] }
    | some pos =>
        let shares_to_sell := amount / price
        if pos.shares ≥ shares_to_sell then
          let gain_pct :=
            if pos.avg_price > 0 then
              (price - pos.avg_price) / pos.avg_price * 100
            else 0
          let remaining := pos.shares - shares_to_sell
          { current_balance := current_balance + amount,
            portfolio :=
              if remaining < eps then eraseAsset portfolio asset
              else setAsset portfolio asset ⟨remaining, pos.avg_price⟩,
            logged := [mkLogged "SELL" amount asset reasoning price gain_pct] }
        else
          { current_balance := current_balance, portfolio := portfolio,
            logged := [] }
  else if decision.action = "HOLD" then
    match lookupAsset portfolio asset with
    | some pos =>
        if pos.shares > 0 then
          { current_balance := current_balance, portfolio := portfolio,
            logged := [mkLogged "HOLD" 0 asset reasoning price 0] }
        else
          { current_balance := current_balance, portfolio := portfolio,
            logged := [mkLogged "WATCH" 0 asset reasoning price 0] }
    | none =>
        { current_balance := current_balance, portfolio := portfolio,
          logged := [mkLogged "WATCH" 0 asset reasoning price 0] }
  else if decision.action = "WATCH" then
    { current_balance := current_balance, portfolio := portfolio,
      logged := [mkLogged "WATCH" 0 asset reasoning price 0] }
  else
    { current_balance := current_balance, portfolio := portfolio,
      logged := [] }

/-- One full decision cycle as wired in the source: the raw oracle
decision passes through the engine's price-ceiling guardrail inside
`get_market_analysis`, and `investment_job` consumes the result. -/
def run_cycle (current_balance : ℚ) (portfolio : Portfolio)
    (raw : Decision) : JobResult :=
  investment_job current_balance portfolio (apply_price_ceiling raw)

/-- Per-category amount total over a transaction list (amount read as
`float(amount or 0)`), used to state the cash invariant. -/
def sumCat (cat : String) : List Tx → ℚ
  | [] => 0
  | t :: rest => (if t.category = cat then txAmount t else 0) + sumCat cat rest

/-! ### Helper lemmas -/

/-- The effective-price coercion of the reducer agrees with the spec's
`px = price if price > 0 else 1.0`. -/
theorem effPrice_some (P : ℚ) : effPrice (some P) = if 0 < P then P else 1 := by
  simp only [effPrice]
  by_cases h0 : P = 0
  · subst h0; norm_num
  · simp only [h0, if_false]
    by_cases hle : P ≤ 0
    · rw [if_pos hle, if_neg (by linarith)]
    · rw [if_neg hle, if_pos (by linarith)]

/-- One replay step moves the balance by the signed amount of the row's
category and by nothing for any other category. -/
theorem applyTx_balance (s : PState) (t : Tx) :
    (applyTx s t).balance = s.balance
      + (if t.category = "DEPOSIT" then txAmount t else 0)
      - (if t.category = "BUY" then txAmount t else 0)
      + (if t.category = "SELL" then txAmount t else 0) := by
  simp only [applyTx]
  by_cases h1 : t.category = "DEPOSIT"
  · have h2 : ¬ t.category = "BUY" := by rw [h1]; decide
    have h3 : ¬ t.category = "SELL" := by rw [h1]; decide
    simp [h1, h2, h3]
  · by_cases h2 : t.category = "BUY"
    · have h3 : ¬ t.category = "SELL" := by rw [h2]; decide
      simp [h1, h2, h3]
    · by_cases h3 : t.category = "SELL"
      · cases hl : lookupAsset s.portfolio t.asset <;> simp [h1, h2, h3, hl]
      · simp [h1, h2, h3]

/-- Balance of a left fold of replay steps, from any starting state. -/
theorem foldl_applyTx_balance (txs : List Tx) :
    ∀ s : PState, (txs.foldl applyTx s).balance =
      s.balance + sumCat "DEPOSIT" txs - sumCat "BUY" txs + sumCat "SELL" txs := by
  induction txs with
  | nil => intro s; simp [sumCat]
  | cons t rest ih =>
      intro s
      simp only [List.foldl_cons, sumCat, ih (applyTx s t), applyTx_balance]
      ring

/-- Every entry of an updated dict is the written pair or an old entry. -/
theorem mem_setAsset {p : Portfolio} {a : String} {v : Position}
    {x : String × Position} (hx : x ∈ setAsset p a v) : x = (a, v) ∨ x ∈ p := by
  induction p with
  | nil =>
      simp only [setAsset, List.mem_singleton] at hx
      exact Or.inl hx
  | cons hd tl ih =>
      obtain ⟨k, w⟩ := hd
      by_cases h : k = a
      · simp only [setAsset, if_pos h, List.mem_cons] at hx
        rcases hx with h1 | h2
        · exact Or.inl (by simp [h1, h])
        · exact Or.inr (List.mem_cons_of_mem _ h2)
      · simp only [setAsset, if_neg h, List.mem_cons] at hx
        rcases hx with h1 | h2
        · exact Or.inr (by simp [h1])
        · rcases ih h2 with h3 | h4
          · exact Or.inl h3
          · exact Or.inr (List.mem_cons_of_mem _ h4)

/-- Every entry surviving a deletion was an entry before it. -/
theorem mem_eraseAsset {p : Portfolio} {a : String}
    {x : String × Position} (hx : x ∈ eraseAsset p a) : x ∈ p := by
  induction p with
  | nil => simp only [eraseAsset] at hx; exact hx
  | cons hd tl ih =>
      obtain ⟨k, w⟩ := hd
      by_cases h : k = a
      · simp only [eraseAsset, if_pos h] at hx
        exact List.mem_cons_of_mem _ hx
      · simp only [eraseAsset, if_neg h, List.mem_cons] at hx
        rcases hx with h1 | h2
        · exact List.mem_cons.2 (Or.inl h1)
        · exact List.mem_cons_of_mem _ (ih h2)

/-- A successful lookup names an entry of the dict. -/
theorem lookupAsset_mem {p : Portfolio} {a : String} {pos : Position}
    (h : lookupAsset p a = some pos) : (a, pos) ∈ p := by
  induction p with
  | nil => simp [lookupAsset] at h
  | cons hd tl ih =>
      obtain ⟨k, w⟩ := hd
      by_cases hk : k = a
      · simp only [lookupAsset, if_pos hk] at h
        subst hk
        obtain rfl : w = pos := by injection h
        exact List.mem_cons_self _ _
      · simp only [lookupAsset, if_neg hk] at h
        exact List.mem_cons_of_mem _ (ih h)

/-- One replay step preserves the lower bound `eps` on all recorded
share counts, provided a BUY row buys at least `eps` shares. -/
theorem applyTx_preserves_min_shares (s : PState) (t : Tx)
    (hbuy : t.category = "BUY" → eps ≤ txAmount t / effPrice t.price)
    (hinv : ∀ x ∈ s.portfolio, eps ≤ x.2.shares) :
    ∀ x ∈ (applyTx s t).portfolio, eps ≤ x.2.shares := by
  intro x hx
  by_cases h1 : t.category = "DEPOSIT"
  · have h2 : ¬ t.category = "BUY" := by rw [h1]; decide
    have h3 : ¬ t.category = "SELL" := by rw [h1]; decide
    simp only [applyTx, h1, if_true] at hx
    exact hinv x hx
  · by_cases h2 : t.category = "BUY"
    · simp only [applyTx, h1, h2, if_false, if_true] at hx
      rcases mem_setAsset hx with h | h
      · subst h
        have hsb : eps ≤ txAmount t / effPrice t.price := hbuy h2
        have hold : (0 : ℚ) ≤
            ((lookupAsset s.portfolio t.asset).getD ⟨0, 0⟩).shares := by
          cases hl : lookupAsset s.portfolio t.asset with
          | none => simp
          | some pos =>
              have := hinv _ (lookupAsset_mem hl)
              simp only [Option.getD_some]
              have heps : (0 : ℚ) < eps := by norm_num [eps]
              linarith
        simp only
        linarith
      · exact hinv x h
    · by_cases h3 : t.category = "SELL"
      · simp only [applyTx, h1, h2, h3, if_false, if_true] at hx
        cases hl : lookupAsset s.portfolio t.asset with
        | none => rw [hl] at hx; exact hinv x hx
        | some pos =>
            rw [hl] at hx
            simp only at hx
            by_cases hdel :
                max 0 (pos.shares - txAmount t / effPrice t.price) < eps
            · rw [if_pos hdel] at hx
              exact hinv x (mem_eraseAsset hx)
            · rw [if_neg hdel] at hx
              rcases mem_setAsset hx with h | h
              · subst h
                simpa using le_of_not_lt hdel
              · exact hinv x h
      · simp only [applyTx, h1, h2, h3, if_false] at hx
        exact hinv x hx

/-- The engine's price-ceiling rewrite fires on a BUY of a
prediction-market asset priced above `0.75`, producing the HOLD
decision of amount `0`. -/
theorem apply_price_ceiling_fires (d : Decision)
    (hact : d.action = "BUY")
    (hpm : pyStartsWith d.asset "POLY:" = true ∨ (d.price).getD 0 < 99 / 100)
    (hpx : 3 / 4 < (d.price).getD 0) :
    apply_price_ceiling d =
      { action := "HOLD", asset := d.asset, amount := some 0,
        price := some ((d.price).getD 0),
        reasoning := blockedReasoning ((d.price).getD 0) } := by
  simp only [apply_price_ceiling, hact, if_true]
  rw [if_pos ⟨hpm, by linarith⟩]

/-! ### Claim theorems -/

/-- Claim C3: for the full ledger, the reconstructed cash balance is
`sum(DEPOSIT.amount) - sum(BUY.amount) + sum(SELL.amount)`, computed by
a strict left-to-right replay of the ascending ledger; rows of any
category other than DEPOSIT, BUY and SELL (in particular HOLD and
WATCH) leave both cash and positions unchanged. -/
theorem C3_cash_invariant :
    (∀ txs : List Tx,
      (reconstruct_portfolio_state txs).balance =
        sumCat "DEPOSIT" txs - sumCat "BUY" txs + sumCat "SELL" txs)
    ∧ (∀ (s : PState) (t : Tx),
        t.category ≠ "DEPOSIT" → t.category ≠ "BUY" → t.category ≠ "SELL" →
        applyTx s t = s) := by
  constructor
  · intro txs
    simpa using foldl_applyTx_balance txs ⟨0, []⟩
  · intro s t h1 h2 h3
    simp [applyTx, h1, h2, h3]

/-- Claim C3, witness: a concrete four-row ledger with a HOLD row
realises the cash sum, and a HOLD step is a no-op. -/
theorem C3_cash_invariant_witness :
    (reconstruct_portfolio_state
      [⟨"DEPOSIT", some 100, "USD", "init", none, 0⟩,
       ⟨"BUY", some 40, "X", "r1", some 2, 0⟩,
       ⟨"HOLD", some 0, "X", "hold", some 2, 0⟩,
       ⟨"SELL", some 10, "X", "r2", some 2, 0⟩]).balance = 100 - 40 + 10
    ∧ applyTx ⟨7, [("X", ⟨3, 2⟩)]⟩ ⟨"HOLD", some 0, "X", "hold", some 2, 0⟩ =
        ⟨7, [("X", ⟨3, 2⟩)]⟩ := by
  constructor
  · rw [(C3_cash_invariant).1]
    norm_num +decide [sumCat, txAmount]
  · exact (C3_cash_invariant).2 _ _ (by decide) (by decide) (by decide)

/-- Claim C1: the replay reduction handles a BUY of amount `A` at price
`P` by resolving `px = P` if `P > 0` else `1.0`, subtracting `A` from
cash, adding `A / px` shares, and setting the average price to
`(oldShares*oldAvg + (A/px)*px) / newShares` when `newShares > 0` and
to `px` otherwise, with `oldShares = oldAvg = 0` for an absent
position; starting from cash `100` with no positions, `BUY $40 X @ 2.0`
then `BUY $20 X @ 4.0` yields `shares = 25`, `avg_price = 2.4`. -/
theorem C1_buy_step_weighted_average :
    (∀ (s : PState) (A P : ℚ) (asset detail : String) (g : ℚ),
      applyTx s ⟨"BUY", some A, asset, detail, some P, g⟩ =
        (let px := if 0 < P then P else 1
         let old := (lookupAsset s.portfolio asset).getD ⟨0, 0⟩
         let newShares := old.shares + A / px
         { balance := s.balance - A,
           portfolio := setAsset s.portfolio asset
             ⟨newShares,
              if 0 < newShares then
                (old.shares * old.avg_price + (A / px) * px) / newShares
              else px⟩ }))
    ∧ reconstruct_portfolio_state
        [⟨"DEPOSIT", some 100, "USD", "init", none, 0⟩,
         ⟨"BUY", some 40, "X", "r1", some 2, 0⟩,
         ⟨"BUY", some 20, "X", "r2", some 4, 0⟩] =
      ⟨40, [("X", ⟨25, 12 / 5⟩)]⟩ := by
  constructor
  · intro s A P asset detail g
    simp only [applyTx, txAmount, effPrice_some]
    norm_num +decide
  · norm_num +decide
      [reconstruct_portfolio_state, applyTx, txAmount, effPrice,
       lookupAsset, setAsset, eps]

/-- Claim C2: the replay reduction handles a SELL of amount `A` at
price `P` by resolving `px` as for BUY, always adding `A` to cash,
setting the position's shares to `max 0 (shares - A/px)` with
`avg_price` unchanged, deleting the position when the result is below
`1e-6`, and leaving the positions map untouched when the asset is not
held. -/
theorem C2_sell_step (s : PState) (A P : ℚ) (asset detail : String) (g : ℚ) :
    applyTx s ⟨"SELL", some A, asset, detail, some P, g⟩ =
      (let px := if 0 < P then P else 1
       match lookupAsset s.portfolio asset with
       | none => { s with balance := s.balance + A }
       | some pos =>
           { balance := s.balance + A,
             portfolio :=
               if max 0 (pos.shares - A / px) < 1 / 1000000 then
                 eraseAsset s.portfolio asset
               else
                 setAsset s.portfolio asset
                   ⟨max 0 (pos.shares - A / px), pos.avg_price⟩ }) := by
  simp only [applyTx, txAmount, effPrice_some]
  norm_num +decide
  cases hl : lookupAsset s.portfolio asset <;> simp [hl, eps]

/-- Claim C4, counterexample: a BUY of amount `0` of a fresh asset
leaves a position entry with `shares = 0 < 1e-6` in the replayed map,
so the map does contain an entry whose shares are below the epsilon. -/
theorem C4_counterexample :
    (reconstruct_portfolio_state
      [⟨"BUY", some 0, "X", "zero-amount buy", some 1, 0⟩]).portfolio =
      [("X", ⟨0, 1⟩)]
    ∧ (0 : ℚ) < 1 / 1000000 := by
  refine ⟨?_, by norm_num⟩
  norm_num +decide
    [reconstruct_portfolio_state, applyTx, txAmount, effPrice,
     lookupAsset, setAsset, eps]

/-- Claim C4, amended: provided every BUY row purchases at least `1e-6`
shares (`amount / px ≥ eps`), the replayed positions map contains no
entry whose shares are below `1e-6`: SELL either leaves at least `eps`
shares or deletes the key, and such a BUY only ever adds shares.
Without that proviso a BUY of zero (or tiny) amount violates the
invariant. -/
theorem C4_amended_min_shares (txs : List Tx)
    (hbuy : ∀ t ∈ txs, t.category = "BUY" → eps ≤ txAmount t / effPrice t.price) :
    ∀ x ∈ (reconstruct_portfolio_state txs).portfolio, eps ≤ x.2.shares := by
  have main : ∀ (l : List Tx) (s : PState),
      (∀ t ∈ l, t.category = "BUY" → eps ≤ txAmount t / effPrice t.price) →
      (∀ x ∈ s.portfolio, eps ≤ x.2.shares) →
      ∀ x ∈ (l.foldl applyTx s).portfolio, eps ≤ x.2.shares := by
    intro l
    induction l with
    | nil => intro s _ hs; simpa using hs
    | cons t rest ih =>
        intro s hl hs
        simp only [List.foldl_cons]
        exact ih (applyTx s t)
          (fun u hu => hl u (List.mem_cons_of_mem _ hu))
          (applyTx_preserves_min_shares s t (hl t (List.mem_cons_self _ _)) hs)
  exact main txs ⟨0, []⟩ hbuy (by simp)

/-- Claim C4, amended, witness: a deposit followed by a BUY of `20`
shares satisfies the BUY proviso, and the resulting entry holds at
least `eps` shares. -/
theorem C4_amended_min_shares_witness :
    (∀ t ∈ [(⟨"DEPOSIT", some 100, "USD", "init", none, 0⟩ : Tx),
            ⟨"BUY", some 40, "X", "r", some 2, 0⟩],
      t.category = "BUY" → eps ≤ txAmount t / effPrice t.price)
    ∧ eps ≤ (20 : ℚ) := by
  have hhyp : ∀ t ∈ [(⟨"DEPOSIT", some 100, "USD", "init", none, 0⟩ : Tx),
            ⟨"BUY", some 40, "X", "r", some 2, 0⟩],
      t.category = "BUY" → eps ≤ txAmount t / effPrice t.price := by
    intro t ht
    simp only [List.mem_cons, List.mem_singleton, List.not_mem_nil, or_false] at ht
    rcases ht with rfl | rfl
    · intro h; exact absurd h (by decide)
    · intro _; norm_num [txAmount, effPrice, eps]
  refine ⟨hhyp, ?_⟩
  have hmem : ("X", (⟨20, 2⟩ : Position)) ∈
      (reconstruct_portfolio_state
        [⟨"DEPOSIT", some 100, "USD", "init", none, 0⟩,
         ⟨"BUY", some 40, "X", "r", some 2, 0⟩]).portfolio := by
    norm_num +decide
      [reconstruct_portfolio_state, applyTx, txAmount, effPrice,
       lookupAsset, setAsset, eps]
  simpa using C4_amended_min_shares _ hhyp _ hmem

/-- Claim C5: when a proposed BUY would push the target asset's value
(`shares * avg_price`, `0` if not held) past
`maxPosition = 0.40 * totalPortfolioValue`, the executor rewrites the
trade: with `allowed = maxPosition - currentAssetValue` below `2.0` it
becomes a WATCH of amount `0` with the diversification reason;
otherwise the BUY proceeds with its amount capped to `allowed`. -/
theorem C5_diversification_cap (b : ℚ) (p : Portfolio) (d : Decision)
    (hact : d.action = "BUY")
    (hover : (match lookupAsset p d.asset with
              | none => (0 : ℚ)
              | some pos => pos.shares * pos.avg_price) + decAmount d >
             (b + holdingsValue p) * (40 / 100)) :
    (let currentAssetValue : ℚ :=
      match lookupAsset p d.asset with
      | none => 0
      | some pos => pos.shares * pos.avg_price
     let allowed := (b + holdingsValue p) * (40 / 100) - currentAssetValue
     (allowed < 2 →
        investment_job b p d =
          ⟨b, p, [mkLogged "WATCH" 0 d.asset
            "Diversification limit reached (Max 40%)" (decPrice d) 0]⟩)
     ∧ (2 ≤ allowed →
        investment_job b p d =
          execBuy b p d.asset allowed (decPrice d) d.reasoning)) := by
  simp only [investment_job, hact, if_true]
  rw [if_pos hover]
  constructor
  · intro hlt
    rw [if_pos hlt]
  · intro hge
    rw [if_neg (by linarith)]

/-- Claim C5, witness: with total value `100` and an existing `X`
position worth `35`, `BUY $10 X` executes capped to `$5`; with the
position worth `39` (`allowed = 1 < 2`), the same proposal is rewritten
to `WATCH` of amount `0`. -/
theorem C5_diversification_cap_witness :
    investment_job 65 [("X", ⟨35, 1⟩)] ⟨"BUY", "X", some 10, some 1, "dip buy"⟩ =
      ⟨60, [("X", ⟨40, 1⟩)], [mkLogged "BUY" 5 "X" "dip buy" 1 0]⟩
    ∧ investment_job 61 [("X", ⟨39, 1⟩)] ⟨"BUY", "X", some 10, some 1, "dip buy"⟩ =
      ⟨61, [("X", ⟨39, 1⟩)],
        [mkLogged "WATCH" 0 "X" "Diversification limit reached (Max 40%)" 1 0]⟩ := by
  constructor
  · have h := (C5_diversification_cap 65 [("X", ⟨35, 1⟩)]
      ⟨"BUY", "X", some 10, some 1, "dip buy"⟩ rfl
      (by norm_num +decide [lookupAsset, holdingsValue, decAmount])).2
      (by norm_num +decide [lookupAsset, holdingsValue])
    rw [h]
    norm_num +decide [lookupAsset, holdingsValue, decPrice, execBuy, setAsset, mkLogged]
  · have h := (C5_diversification_cap 61 [("X", ⟨39, 1⟩)]
      ⟨"BUY", "X", some 10, some 1, "dip buy"⟩ rfl
      (by norm_num +decide [lookupAsset, holdingsValue, decAmount])).1
      (by norm_num +decide [lookupAsset, holdingsValue])
    rw [h]
    norm_num +decide [lookupAsset, holdingsValue, decPrice, mkLogged]

/-- Claim C6: a proposed BUY of a prediction-market instrument (symbol
with the `POLY:` naming convention, or price below `0.99`) priced above
`0.75` is rewritten by the engine guardrail to HOLD with amount `0` and
a blocking reason, while a BUY of a bare-ticker asset priced at or
above `0.99` passes the rule unchanged. -/
theorem C6_price_ceiling (d : Decision) :
    (d.action = "BUY" →
      (pyStartsWith d.asset "POLY:" = true ∨ (d.price).getD 0 < 99 / 100) →
      3 / 4 < (d.price).getD 0 →
      apply_price_ceiling d =
        { action := "HOLD", asset := d.asset, amount := some 0,
          price := some ((d.price).getD 0),
          reasoning := blockedReasoning ((d.price).getD 0) })
    ∧ (d.action = "BUY" →
      pyStartsWith d.asset "POLY:" = false →
      99 / 100 ≤ (d.price).getD 0 →
      apply_price_ceiling d = d) := by
  constructor
  · exact fun hact hpm hpx => apply_price_ceiling_fires d hact hpm hpx
  · intro hact hnp hge
    simp only [apply_price_ceiling, hact, if_true]
    rw [if_neg]
    rintro ⟨hAB, -⟩
    rcases hAB with h | h
    · rw [hnp] at h; exact absurd h (by decide)
    · linarith

/-- Claim C6, witness: `BUY POLY:foo @ 0.80` is rewritten to HOLD of
amount `0`, and `BUY NVDA @ 140` passes unchanged. -/
theorem C6_price_ceiling_witness :
    apply_price_ceiling ⟨"BUY", "POLY:foo", some 10, some (4 / 5), "snipe"⟩ =
      ⟨"HOLD", "POLY:foo", some 0, some (4 / 5), blockedReasoning (4 / 5)⟩
    ∧ apply_price_ceiling ⟨"BUY", "NVDA", some 10, some 140, "momentum"⟩ =
      ⟨"BUY", "NVDA", some 10, some 140, "momentum"⟩ := by
  constructor
  · have h := (C6_price_ceiling
      ⟨"BUY", "POLY:foo", some 10, some (4 / 5), "snipe"⟩).1 rfl
      (Or.inl (by decide)) (by norm_num)
    simpa using h
  · exact (C6_price_ceiling
      ⟨"BUY", "NVDA", some 10, some 140, "momentum"⟩).2 rfl (by decide)
      (by norm_num)

/-- Claim C7, counterexample: at cash `61` with a `POLY:foo` position
worth `39` (total value `100`), the proposed `BUY $10 POLY:foo @ 0.80`
violates both the diversification cap (`allowed = 1 < 2`) and the
price ceiling, yet the cycle finalises the price-ceiling HOLD rewrite
— not the diversification WATCH rewrite the claim requires. -/
theorem C7_counterexample :
    run_cycle 61 [("POLY:foo", ⟨4875 / 100, 4 / 5⟩)]
        ⟨"BUY", "POLY:foo", some 10, some (4 / 5), "snipe"⟩ =
      ⟨61, [("POLY:foo", ⟨4875 / 100, 4 / 5⟩)],
        [⟨"HOLD", some 0, "POLY:foo", blockedReasoning (4 / 5), some (4 / 5), 0⟩]⟩
    ∧ (4875 / 100 * (4 / 5) + 10 > ((61 : ℚ) + 4875 / 100 * (4 / 5)) * (40 / 100)
        ∧ ((61 : ℚ) + 4875 / 100 * (4 / 5)) * (40 / 100) - 4875 / 100 * (4 / 5) < 2)
    ∧ (pyStartsWith "POLY:foo" "POLY:" = true ∧ (3 : ℚ) / 4 < 4 / 5)
    ∧ ("HOLD" : String) ≠ "WATCH" := by
  refine ⟨?_, by norm_num, ⟨by decide, by norm_num⟩, by decide⟩
  norm_num +decide [run_cycle, investment_job, apply_price_ceiling, pyStartsWith,
    decAmount, decPrice, holdingsValue, lookupAsset, mkLogged, execBuy, eps]

/-- Claim C7, amended: the price ceiling is applied first, inside the
decision engine, so once a BUY of a prediction-market asset priced
above `0.75` reaches the cycle, the finalised outcome is the
price-ceiling HOLD rewrite logged as an informational HOLD (position
held) or WATCH (no position) of amount `0`, with cash and positions
unchanged; the diversification cap, funds check and shares check never
run on it. -/
theorem C7_amended_ceiling_first (b : ℚ) (p : Portfolio) (d : Decision)
    (hact : d.action = "BUY")
    (hpm : pyStartsWith d.asset "POLY:" = true ∨ (d.price).getD 0 < 99 / 100)
    (hpx : 3 / 4 < (d.price).getD 0) :
    run_cycle b p d =
      { current_balance := b, portfolio := p,
        logged := [mkLogged
          (match lookupAsset p d.asset with
           | some pos => if 0 < pos.shares then "HOLD" else "WATCH"
           | none => "WATCH")
          0 d.asset (blockedReasoning ((d.price).getD 0))
          ((d.price).getD 0) 0] } := by
  have hp0 : ((d.price).getD 0) ≠ 0 := by
    intro h; rw [h] at hpx; norm_num at hpx
  have hrw := apply_price_ceiling_fires d hact hpm hpx
  simp only [run_cycle, hrw]
  simp only [investment_job, decAmount, decPrice, hp0, if_false]
  norm_num +decide
  cases hl : lookupAsset p d.asset with
  | none => simp [hl]
  | some pos =>
      by_cases hs : 0 < pos.shares <;> simp [hl, hs]

/-- Claim C7, amended, witness: with no position held, a blocked
`BUY POLY:bar @ 0.80` finalises as a WATCH of amount `0` carrying the
blocking reason, with state untouched. -/
theorem C7_amended_ceiling_first_witness :
    run_cycle 100 [] ⟨"BUY", "POLY:bar", some 5, some (4 / 5), "snipe"⟩ =
      ⟨100, [], [mkLogged "WATCH" 0 "POLY:bar" (blockedReasoning (4 / 5)) (4 / 5) 0]⟩ := by
  have h := C7_amended_ceiling_first 100 []
    ⟨"BUY", "POLY:bar", some 5, some (4 / 5), "snipe"⟩ rfl
    (Or.inl (by decide)) (by norm_num)
  simpa [lookupAsset] using h

/-- Claim C8, counterexample: after the API reset operation
(`reset_system`, which runs `reset_db` and then logs the reloaded
balance as a fresh valuation point) the ledger does hold exactly the
genesis deposit, but the valuation history holds two points of `100.0`,
not exactly one. -/
theorem C8_counterexample :
    reset_system ⟨[⟨"BUY", some 5, "Z", "junk", some 1, 0⟩], [55]⟩ =
      (⟨[genesisDeposit], [100, 100]⟩, ⟨100, []⟩)
    ∧ ([(100 : ℚ), 100]).length ≠ 1 := by
  refine ⟨?_, by decide⟩
  norm_num +decide [reset_system, reset_db, init_db, log_portfolio_value,
    reconstruct_portfolio_state, applyTx, txAmount, effPrice, genesisDeposit]

/-- Claim C8, amended: for every prior database state, the store-level
reset (`reset_db`) leaves exactly one transaction — the genesis DEPOSIT
of `100.0` of asset `USD` — and exactly one valuation point `100.0`;
the complete API reset (`reset_system`) leaves the same single-row
ledger but two valuation points, each of value `100.0` (the reseeded
genesis point plus the point logged from the reloaded balance), and
reloads the in-memory state to cash `100` with no positions. -/
theorem C8_amended_reset (db : DBState) :
    reset_db db = ⟨[genesisDeposit], [100]⟩
    ∧ reset_system db = (⟨[genesisDeposit], [100, 100]⟩, ⟨100, []⟩) := by
  constructor
  · norm_num +decide [reset_db, init_db]
  · norm_num +decide [reset_system, reset_db, init_db, log_portfolio_value,
      reconstruct_portfolio_state, applyTx, txAmount, effPrice, genesisDeposit]

/-- Claim C9: hard rejections execute nothing — a BUY whose (possibly
diversification-capped) amount fails the funds check, a SELL of an
asset that is not held, and a SELL whose held shares fall short of
`amount / price` all append no transaction and leave cash and the
positions map exactly unchanged. -/
theorem C9_hard_rejection (b : ℚ) (p : Portfolio) (d : Decision) :
    (d.action = "BUY" →
      (match lookupAsset p d.asset with
       | none => (0 : ℚ)
       | some pos => pos.shares * pos.avg_price) + decAmount d ≤
        (b + holdingsValue p) * (40 / 100) →
      (b < decAmount d ∨ decAmount d ≤ 0) →
      investment_job b p d = ⟨b, p, []⟩)
    ∧ (d.action = "BUY" →
      (match lookupAsset p d.asset with
       | none => (0 : ℚ)
       | some pos => pos.shares * pos.avg_price) + decAmount d >
        (b + holdingsValue p) * (40 / 100) →
      2 ≤ (b + holdingsValue p) * (40 / 100) -
        (match lookupAsset p d.asset with
         | none => (0 : ℚ)
         | some pos => pos.shares * pos.avg_price) →
      b < (b + holdingsValue p) * (40 / 100) -
        (match lookupAsset p d.asset with
         | none => (0 : ℚ)
         | some pos => pos.shares * pos.avg_price) →
      investment_job b p d = ⟨b, p, []⟩)
    ∧ (d.action = "SELL" → lookupAsset p d.asset = none →
      investment_job b p d = ⟨b, p, []⟩)
    ∧ (d.action = "SELL" → ∀ pos, lookupAsset p d.asset = some pos →
      pos.shares < decAmount d / decPrice d →
      investment_job b p d = ⟨b, p, []⟩) := by
  refine ⟨?_, ?_, ?_, ?_⟩
  · intro hact hno hrej
    simp only [investment_job, hact, if_true]
    rw [if_neg (by linarith), execBuy, if_neg]
    rintro ⟨hge, hpos⟩
    rcases hrej with h | h <;> linarith
  · intro hact hover hge hfunds
    simp only [investment_job, hact, if_true]
    rw [if_pos hover, if_neg (by linarith), execBuy, if_neg]
    rintro ⟨hbal, -⟩
    linarith
  · intro hact hnone
    simp +decide [investment_job, hact, hnone]
  · intro hact pos hpos hshort
    simp +decide [investment_job, hact, hpos, not_le.mpr hshort]

/-- Claim C9, witness: four concrete hard rejections — a zero-amount
BUY, an uncapped-funds failure after capping, a SELL of an unheld
asset, and a SELL exceeding the held shares — all leave state and
ledger untouched. -/
theorem C9_hard_rejection_witness :
    investment_job 10 [] ⟨"BUY", "X", some 0, some 1, "r"⟩ = ⟨10, [], []⟩
    ∧ investment_job 1 [("Y", ⟨100, 1⟩)] ⟨"BUY", "X", some 50, some 1, "r"⟩ =
        ⟨1, [("Y", ⟨100, 1⟩)], []⟩
    ∧ investment_job 10 [] ⟨"SELL", "X", some 5, some 1, "r"⟩ = ⟨10, [], []⟩
    ∧ investment_job 10 [("X", ⟨1, 1⟩)] ⟨"SELL", "X", some 5, some 1, "r"⟩ =
        ⟨10, [("X", ⟨1, 1⟩)], []⟩ := by
  refine ⟨?_, ?_, ?_, ?_⟩
  · exact (C9_hard_rejection 10 [] ⟨"BUY", "X", some 0, some 1, "r"⟩).1 rfl
      (by norm_num +decide [lookupAsset, holdingsValue, decAmount])
      (Or.inr (by norm_num [decAmount]))
  · exact (C9_hard_rejection 1 [("Y", ⟨100, 1⟩)]
      ⟨"BUY", "X", some 50, some 1, "r"⟩).2.1 rfl
      (by norm_num +decide [lookupAsset, holdingsValue, decAmount])
      (by norm_num +decide [lookupAsset, holdingsValue])
      (by norm_num +decide [lookupAsset, holdingsValue])
  · exact (C9_hard_rejection 10 [] ⟨"SELL", "X", some 5, some 1, "r"⟩).2.2.1 rfl
      (by norm_num +decide [lookupAsset])
  · exact (C9_hard_rejection 10 [("X", ⟨1, 1⟩)]
      ⟨"SELL", "X", some 5, some 1, "r"⟩).2.2.2 rfl ⟨1, 1⟩
      (by norm_num +decide [lookupAsset])
      (by norm_num [decAmount, decPrice])

/-- Claim C10: the reducer imposes no lower bound on cash — a single
BUY of `$50` at price `1` from the empty ledger returns balance `-50`
while still crediting `50` shares, the reducer being a total function
that rejects nothing. -/
theorem C10_negative_cash_allowed :
    reconstruct_portfolio_state [⟨"BUY", some 50, "X", "oversized buy", some 1, 0⟩] =
      ⟨-50, [("X", ⟨50, 1⟩)]⟩
    ∧ (-50 : ℚ) < 0 ∧ (0 : ℚ) < 50 := by
  refine ⟨?_, by norm_num, by norm_num⟩
  norm_num +decide
    [reconstruct_portfolio_state, applyTx, txAmount, effPrice,
     lookupAsset, setAsset, eps]

end PredictAI
